import Mathlib

/-!
Shallow embedding of the core of `src/app.py` (a multi-user chat board with
broadcast, direct and group messages backed by three CSV logs), together with
proofs of the frozen claims about it.

Modelling conventions:
* Each CSV log is modelled as an explicit file state: `missing` (the file does
  not exist, the `os.path.exists` guard), `corrupt` (reading the file raises,
  the `except` branches), or a list of typed rows.
* The chat log additionally distinguishes `legacy` rows (no `recipient`
  column) from `current` rows (the `recipient` column present).  In a
  `current` row the `recipient` cell is `Option String`: `none` models a
  pandas `NaN` cell, which compares unequal to every string, exactly as in
  Python.
* `hashlib.md5(...).hexdigest()` is abstracted as an explicit function
  parameter `md5_hexdigest : String → String`; the wall-clock timestamps
  produced by `datetime.now()` are likewise passed in as strings.  Every
  operation that writes returns the new file state alongside its result.
-/

/-- A row of `chat_log.csv` in the current schema
(`timestamp,email,user_id,message,recipient`).  `recipient = none` models a
pandas NaN cell. -/
structure Message where
  timestamp : String
  email : String
  user_id : String
  message : String
  recipient : Option String
deriving DecidableEq

/-- A row of a legacy `chat_log.csv` that predates the `recipient` column. -/
structure LegacyMessage where
  timestamp : String
  email : String
  user_id : String
  message : String
deriving DecidableEq

/-- The state of `chat_log.csv` on disk. -/
inductive ChatFile where
  | missing
  | corrupt
  | legacy (rows : List LegacyMessage)
  | current (rows : List Message)
deriving DecidableEq

/-- A row of `registered_users.csv` (`email,user_id,first_login`). -/
structure UserRow where
  email : String
  user_id : String
  first_login : String
deriving DecidableEq

/-- The state of `registered_users.csv` on disk. -/
inductive UsersFile where
  | missing
  | corrupt
  | present (rows : List UserRow)
deriving DecidableEq

/-- A row of `groups.csv`
(`group_id,group_name,creator,members,created_at`); `members` is the
comma-joined member list. -/
structure GroupRow where
  group_id : String
  group_name : String
  creator : String
  members : String
  created_at : String
deriving DecidableEq

/-- The state of `groups.csv` on disk. -/
inductive GroupsFile where
  | missing
  | corrupt
  | present (rows : List GroupRow)
deriving DecidableEq

/-- The dict built per matching group by `get_user_groups`
(`group_id`, `group_name`, `creator`, split member list). -/
structure UserGroup where
  group_id : String
  group_name : String
  creator : String
  members : List String
deriving DecidableEq

/-- The `{email, user_id}` record returned by `get_registered_users`. -/
structure UserDirEntry where
  email : String
  user_id : String
deriving DecidableEq

/-- `generate_user_id`: first 8 hex characters of the MD5 hexdigest of the
email. -/
def generate_user_id (md5_hexdigest : String → String) (email : String) : String :=
  (md5_hexdigest email).take 8

/-- `generate_group_id`: first 8 hex characters of the MD5 hexdigest of
`f"{group_name}_{timestamp}"`, where `timestamp` is the current
`%Y%m%d%H%M%S` time (passed in as `ts`). -/
def generate_group_id (md5_hexdigest : String → String) (ts : String) (group_name : String) : String :=
  (md5_hexdigest (group_name ++ "_" ++ ts)).take 8

/-- `register_user(email)`: returns `(user_id, is_new_user)` (with
`user_id = none` on a storage exception, the `return None, False` branch) and
the resulting state of `registered_users.csv`.  `now` is the formatted
`datetime.now()` written into `first_login`. -/
def register_user (md5_hexdigest : String → String) (now : String) (email : String) :
    UsersFile → (Option String × Bool) × UsersFile
  | .corrupt => ((none, false), .corrupt)
  | .missing =>
    let user_id := generate_user_id md5_hexdigest email
    ((some user_id, true), .present [⟨email, user_id, now⟩])
  | .present rows =>
    let user_id := generate_user_id md5_hexdigest email
    if rows.any (fun r => r.email == email) then
      ((some user_id, false), .present rows)
    else
      ((some user_id, true), .present (rows ++ [⟨email, user_id, now⟩]))

/-- The member list persisted by `create_group`: the creator is appended when
absent from `members` (the `if creator_email not in members` branch). -/
def create_group_members (creator_email : String) (members : List String) : List String :=
  if members.contains creator_email then members else members ++ [creator_email]

/-- `create_group(group_name, creator_email, members)`: returns
`(group_id, success)` and the resulting state of `groups.csv`.  `ts` is the
compact timestamp consumed by `generate_group_id`, `now` the formatted
creation time. -/
def create_group (md5_hexdigest : String → String) (ts now : String)
    (group_name creator_email : String) (members : List String) :
    GroupsFile → (Option String × Bool) × GroupsFile
  | .corrupt => ((none, false), .corrupt)
  | .missing =>
    let group_id := generate_group_id md5_hexdigest ts group_name
    let row : GroupRow :=
      ⟨group_id, group_name, creator_email,
        String.intercalate "," (create_group_members creator_email members), now⟩
    ((some group_id, true), .present [row])
  | .present rows =>
    let group_id := generate_group_id md5_hexdigest ts group_name
    let row : GroupRow :=
      ⟨group_id, group_name, creator_email,
        String.intercalate "," (create_group_members creator_email members), now⟩
    ((some group_id, true), .present (rows ++ [row]))

/-- `get_user_groups(user_email)`: all groups whose split `members` list
contains `user_email`; `[]` when the file is missing or reading it raises. -/
def get_user_groups (user_email : String) : GroupsFile → List UserGroup
  | .missing => []
  | .corrupt => []
  | .present rows =>
    rows.filterMap fun g =>
      let members := g.members.splitOn ","
      if members.contains user_email then
        some ⟨g.group_id, g.group_name, g.creator, members⟩
      else none

/-- `get_registered_users()`: the `{email, user_id}` records.  There is no
`try/except` in this function, so a raising read propagates to the caller,
modelled as `Except.error ()`. -/
def get_registered_users : UsersFile → Except Unit (List UserDirEntry)
  | .missing => .ok []
  | .corrupt => .error ()
  | .present rows => .ok (rows.map fun r => ⟨r.email, r.user_id⟩)

/-- Migration applied by `load_messages` to a legacy row:
`df['recipient'] = 'everyone'` tags every row with the broadcast sentinel. -/
def migrate_legacy (m : LegacyMessage) : Message :=
  ⟨m.timestamp, m.email, m.user_id, m.message, some "everyone"⟩

/-- `load_messages()`: returns the message records and the resulting state of
`chat_log.csv` (a legacy file is rewritten in migrated form — a read with a
persisted side effect).  `[]` when the file is missing or reading it raises. -/
def load_messages : ChatFile → List Message × ChatFile
  | .missing => ([], .missing)
  | .corrupt => ([], .corrupt)
  | .legacy rows =>
    let migrated := rows.map migrate_legacy
    (migrated, .current migrated)
  | .current rows => (rows, .current rows)

/-- `save_message(email, user_id, message, recipient)`: appends one row and
returns whether the write happened plus the new file state.  Appending to a
legacy file (`pd.concat`) leaves the old rows with a NaN `recipient` cell. -/
def save_message (now : String) (email user_id message recipient : String) :
    ChatFile → Bool × ChatFile
  | .missing => (true, .current [⟨now, email, user_id, message, some recipient⟩])
  | .corrupt => (false, .corrupt)
  | .legacy rows =>
    (true, .current ((rows.map fun m => ⟨m.timestamp, m.email, m.user_id, m.message, none⟩)
      ++ [⟨now, email, user_id, message, some recipient⟩]))
  | .current rows =>
    (true, .current (rows ++ [⟨now, email, user_id, message, some recipient⟩]))

/-- `delete_message(message_index)`: drops the row at positional index
`message_index` when `0 <= message_index < len(df)` and rewrites the file;
otherwise returns `False` and leaves the file unchanged. -/
def delete_message (message_index : Int) : ChatFile → Bool × ChatFile
  | .missing => (false, .missing)
  | .corrupt => (false, .corrupt)
  | .legacy rows =>
    if 0 ≤ message_index ∧ message_index < (rows.length : Int) then
      (true, .legacy (rows.eraseIdx message_index.toNat))
    else (false, .legacy rows)
  | .current rows =>
    if 0 ≤ message_index ∧ message_index < (rows.length : Int) then
      (true, .current (rows.eraseIdx message_index.toNat))
    else (false, .current rows)

/-- The visibility predicate `should_show` of `get_filtered_messages`:
broadcast, addressed to the viewer, sent by the viewer, or addressed to one
of the viewer's groups.  A NaN recipient (`none`) compares unequal to every
string and is not contained in the group-id list, as in Python. -/
def should_show (m : Message) (user_email : String) (user_group_ids : List String) : Bool :=
  m.recipient == some "everyone" ||
  m.recipient == some user_email ||
  m.email == user_email ||
  (match m.recipient with
   | some r => user_group_ids.contains r
   | none => false)

/-- A filtered record: the message dict with the `message_index` field added
(`msg['message_index'] = i`). -/
structure FilteredMessage where
  msg : Message
  message_index : Nat
deriving DecidableEq

/-- The `for i, msg in enumerate(messages)` loop of `get_filtered_messages`,
with `i` the running enumeration index. -/
def get_filtered_aux (i : Nat) (user_email : String) (user_group_ids : List String) :
    List Message → List FilteredMessage
  | [] => []
  | m :: rest =>
    if should_show m user_email user_group_ids then
      ⟨m, i⟩ :: get_filtered_aux (i + 1) user_email user_group_ids rest
    else
      get_filtered_aux (i + 1) user_email user_group_ids rest

/-- `get_filtered_messages`, as a function of the loaded message list, the
viewer's email and the viewer's resolved group-id list (the code obtains the
first from `load_messages()` and the last from `get_user_groups`). -/
def get_filtered_messages (messages : List Message) (user_email : String)
    (user_group_ids : List String) : List FilteredMessage :=
  get_filtered_aux 0 user_email user_group_ids messages

/-- The boolean `should_show` test, characterised as a disjunction of
propositions. -/
lemma should_show_iff (m : Message) (v : String) (G : List String) :
    should_show m v G = true ↔
      (m.recipient = some "everyone" ∨ m.recipient = some v ∨ m.email = v ∨
        ∃ g ∈ G, m.recipient = some g) := by
  cases h : m.recipient with
  | none => simp [should_show, h]
  | some r =>
    simp only [should_show, h, Bool.or_eq_true, beq_iff_eq, Option.some.injEq,
      List.contains, List.elem_eq_mem, decide_eq_true_eq]
    constructor
    · rintro (((h1 | h2) | h3) | h4)
      · exact Or.inl (by simp [h1])
      · exact Or.inr (Or.inl (by simp [h2]))
      · exact Or.inr (Or.inr (Or.inl h3))
      · exact Or.inr (Or.inr (Or.inr ⟨r, h4, rfl⟩))
    · rintro (h1 | h2 | h3 | ⟨g, hg, hge⟩)
      · exact Or.inl (Or.inl (Or.inl (by simpa using h1)))
      · exact Or.inl (Or.inl (Or.inr (by simpa using h2)))
      · exact Or.inl (Or.inr h3)
      · cases hge; exact Or.inr hg

/-- Membership in the enumeration loop of `get_filtered_messages`. -/
lemma mem_get_filtered_aux (v : String) (G : List String) (m : Message) :
    ∀ (msgs : List Message) (i : Nat),
      (∃ j, (⟨m, j⟩ : FilteredMessage) ∈ get_filtered_aux i v G msgs) ↔
        (m ∈ msgs ∧ should_show m v G = true) := by
  intro msgs
  induction msgs with
  | nil => intro i; simp [get_filtered_aux]
  | cons a rest ih =>
    intro i
    by_cases h : should_show a v G
    · simp only [get_filtered_aux, h, if_true, List.mem_cons]
      constructor
      · rintro ⟨j, hj | hj⟩
        · obtain ⟨hm, hi⟩ := FilteredMessage.mk.inj hj
          subst hm
          exact ⟨Or.inl rfl, h⟩
        · obtain ⟨hmem, hs⟩ := (ih (i + 1)).mp ⟨j, hj⟩
          exact ⟨Or.inr hmem, hs⟩
      · rintro ⟨hm | hm, hs⟩
        · exact ⟨i, Or.inl (by rw [hm])⟩
        · obtain ⟨j, hj⟩ := (ih (i + 1)).mpr ⟨hm, hs⟩
          exact ⟨j, Or.inr hj⟩
    · simp only [get_filtered_aux, h, if_false, List.mem_cons]
      constructor
      · intro hx
        obtain ⟨hmem, hs⟩ := (ih (i + 1)).mp hx
        exact ⟨Or.inr hmem, hs⟩
      · rintro ⟨hm | hm, hs⟩
        · exact absurd (hm ▸ hs) h
        · exact (ih (i + 1)).mpr ⟨hm, hs⟩

/-- C1: the filtered view produced by `get_filtered_messages` contains a
message `m` of the log iff `m.recipient` is the broadcast sentinel
`"everyone"`, or `m.recipient` equals the viewer's email, or `m`'s sender
email equals the viewer's email, or `m.recipient` is one of the viewer's
group ids; a viewer matching none of these never sees the message. -/
theorem filtered_view_visibility_iff (msgs : List Message) (v : String)
    (G : List String) (m : Message) :
    (∃ j, (⟨m, j⟩ : FilteredMessage) ∈ get_filtered_messages msgs v G) ↔
      (m ∈ msgs ∧
        (m.recipient = some "everyone" ∨ m.recipient = some v ∨ m.email = v ∨
          ∃ g ∈ G, m.recipient = some g)) := by
  rw [get_filtered_messages, mem_get_filtered_aux, should_show_iff]

/-- The loop of `get_filtered_messages` produces a sublist of its input. -/
lemma get_filtered_aux_sublist (v : String) (G : List String) :
    ∀ (msgs : List Message) (i : Nat),
      ((get_filtered_aux i v G msgs).map FilteredMessage.msg).Sublist msgs := by
  intro msgs
  induction msgs with
  | nil => intro i; simp [get_filtered_aux]
  | cons a rest ih =>
    intro i
    by_cases h : should_show a v G
    · simpa [get_filtered_aux, h] using (ih (i + 1)).cons₂ a
    · simpa [get_filtered_aux, h] using (ih (i + 1)).cons a

/-- C2: the messages of the filtered view form a subsequence of the input
log, in the same relative order, with no reordering and no duplication. -/
theorem filtered_view_sublist (msgs : List Message) (v : String) (G : List String) :
    ((get_filtered_messages msgs v G).map FilteredMessage.msg).Sublist msgs :=
  get_filtered_aux_sublist v G msgs 0

/-- Sample broadcast message used in concrete witnesses. -/
def msgA : Message := ⟨"2024-01-01 10:00:00", "alice@x.com", "aaaaaaaa", "hi", some "everyone"⟩

/-- Sample direct message to alice used in concrete witnesses. -/
def msgB : Message := ⟨"2024-01-01 10:01:00", "bob@y.com", "bbbbbbbb", "secret", some "alice@x.com"⟩

/-- Sample broadcast message used in concrete witnesses. -/
def msgC : Message := ⟨"2024-01-01 10:02:00", "carol@z.com", "cccccccc", "third", some "everyone"⟩

/-- Every record produced by the enumeration loop carries the index of its
message in the enumerated list, offset by the starting index. -/
lemma get_filtered_aux_index (v : String) (G : List String) :
    ∀ (msgs : List Message) (i : Nat) (fm : FilteredMessage),
      fm ∈ get_filtered_aux i v G msgs →
      ∃ k, fm.message_index = i + k ∧ msgs[k]? = some fm.msg := by
  intro msgs
  induction msgs with
  | nil => intro i fm h; simp [get_filtered_aux] at h
  | cons a rest ih =>
    intro i fm h
    by_cases hs : should_show a v G
    · simp only [get_filtered_aux, hs, if_true, List.mem_cons] at h
      rcases h with h1 | h1
      · subst h1
        exact ⟨0, by simp⟩
      · obtain ⟨k, hk1, hk2⟩ := ih (i + 1) fm h1
        exact ⟨k + 1, by omega, by simpa using hk2⟩
    · simp only [get_filtered_aux, hs, if_false] at h
      obtain ⟨k, hk1, hk2⟩ := ih (i + 1) fm h
      exact ⟨k + 1, by omega, by simpa using hk2⟩

/-- C9: each record of the filtered view carries a `message_index` equal to
its message's position in the full unfiltered log, and `delete_message`
applied to that index (as `display_messages` does) succeeds and removes
exactly the record at that full-log position. -/
theorem message_index_targets_full_log (msgs : List Message) (v : String)
    (G : List String) (fm : FilteredMessage)
    (h : fm ∈ get_filtered_messages msgs v G) :
    msgs[fm.message_index]? = some fm.msg ∧
    delete_message (fm.message_index : Int) (ChatFile.current msgs) =
      (true, ChatFile.current
        (msgs.take fm.message_index ++ msgs.drop (fm.message_index + 1))) := by
  obtain ⟨k, hk1, hk2⟩ := get_filtered_aux_index v G msgs 0 fm h
  have hidx : fm.message_index = k := by omega
  subst hidx
  obtain ⟨hlt, -⟩ := List.getElem?_eq_some.mp hk2
  have hcond : 0 ≤ (fm.message_index : Int) ∧
      (fm.message_index : Int) < (msgs.length : Int) :=
    ⟨Int.ofNat_nonneg _, by exact_mod_cast hlt⟩
  refine ⟨hk2, ?_⟩
  simp [delete_message, hcond, List.eraseIdx_eq_take_drop_succ]

/-- Concrete instantiation of `message_index_targets_full_log`. -/
theorem message_index_targets_full_log_witness :
    [msgA, msgB][(1 : Nat)]? = some msgB ∧
    delete_message ((1 : Nat) : Int) (ChatFile.current [msgA, msgB]) =
      (true, ChatFile.current ([msgA, msgB].take 1 ++ [msgA, msgB].drop 2)) :=
  message_index_targets_full_log [msgA, msgB] "alice@x.com" [] ⟨msgB, 1⟩ (by decide)

/-- C5: `delete_message` succeeds exactly when the position is within the
bounds of the current log; on success the persisted log is the prior log
with only the record at that position removed, and on an out-of-bounds
position it reports failure and leaves the log unchanged. -/
theorem delete_message_bounds (i : Int) (rows : List Message) :
    ((delete_message i (ChatFile.current rows)).1 = true ↔
      0 ≤ i ∧ i < (rows.length : Int)) ∧
    ((0 ≤ i ∧ i < (rows.length : Int)) →
      delete_message i (ChatFile.current rows) =
        (true, ChatFile.current (rows.take i.toNat ++ rows.drop (i.toNat + 1)))) ∧
    (¬(0 ≤ i ∧ i < (rows.length : Int)) →
      delete_message i (ChatFile.current rows) = (false, ChatFile.current rows)) := by
  by_cases h : 0 ≤ i ∧ i < (rows.length : Int)
  · simp [delete_message, h, List.eraseIdx_eq_take_drop_succ]
  · simp [delete_message, h]

/-- Concrete instantiation of `delete_message_bounds`: position 2 is out of
bounds of a one-record log (failure, log unchanged), position 0 is in bounds
(success, record removed). -/
theorem delete_message_bounds_witness :
    delete_message 2 (ChatFile.current [msgA]) = (false, ChatFile.current [msgA]) ∧
    delete_message 0 (ChatFile.current [msgA]) =
      (true, ChatFile.current ([msgA].take 0 ++ [msgA].drop 1)) :=
  ⟨(delete_message_bounds 2 [msgA]).2.2 (by decide),
   (delete_message_bounds 0 [msgA]).2.1 (by decide)⟩

/-- C6 counterexample: the snapshot log is `[msgA, msgB, msgC]`, whose
position 1 holds `msgB`; after an interleaved `delete_message 0` the log is
`[msgB, msgC]`, and `delete_message 1` then succeeds and removes `msgC` — a
record different from the snapshot's position-1 occupant — with no
re-validation and no rejection. -/
theorem delete_no_revalidation_counterexample :
    delete_message 0 (ChatFile.current [msgA, msgB, msgC]) =
      (true, ChatFile.current [msgB, msgC]) ∧
    delete_message 1 (ChatFile.current [msgB, msgC]) =
      (true, ChatFile.current [msgB]) ∧
    [msgA, msgB, msgC][(1 : Nat)]? = some msgB ∧
    msgC ≠ msgB := by
  decide

/-- C6 amended: `delete_message` performs no re-validation against any prior
snapshot: whenever the position is in bounds of the log at call time it
succeeds and removes exactly the record at that position of the call-time
log, whatever the log looked like when the position was observed. -/
theorem delete_removes_current_position (rows : List Message) (i : Nat)
    (h : i < rows.length) :
    delete_message ((i : Nat) : Int) (ChatFile.current rows) =
      (true, ChatFile.current (rows.take i ++ rows.drop (i + 1))) := by
  have hcond : 0 ≤ ((i : Nat) : Int) ∧ ((i : Nat) : Int) < (rows.length : Int) :=
    ⟨Int.ofNat_nonneg _, by exact_mod_cast h⟩
  simp [delete_message, hcond, List.eraseIdx_eq_take_drop_succ]

/-- Concrete instantiation of `delete_removes_current_position`. -/
theorem delete_removes_current_position_witness :
    delete_message ((1 : Nat) : Int) (ChatFile.current [msgB, msgC]) =
      (true, ChatFile.current ([msgB, msgC].take 1 ++ [msgB, msgC].drop 2)) :=
  delete_removes_current_position [msgB, msgC] 1 (by decide)

/-- C3: the user id returned by `register_user` is the first 8 characters of
the content hash of the email, on every call; when a row for the email
already exists the call returns that id with `is_new_user = false` and
writes nothing, so two successive calls leave exactly one persisted row for
the email. -/
theorem register_user_idempotent (md5_hexdigest : String → String)
    (now1 now2 email : String) (rows : List UserRow)
    (h : rows.all (fun r => r.email != email) = true) :
    register_user md5_hexdigest now1 email (UsersFile.present rows) =
      ((some ((md5_hexdigest email).take 8), true),
        UsersFile.present (rows ++ [⟨email, (md5_hexdigest email).take 8, now1⟩])) ∧
    register_user md5_hexdigest now2 email
        (UsersFile.present (rows ++ [⟨email, (md5_hexdigest email).take 8, now1⟩])) =
      ((some ((md5_hexdigest email).take 8), false),
        UsersFile.present (rows ++ [⟨email, (md5_hexdigest email).take 8, now1⟩])) ∧
    (rows ++ [(⟨email, (md5_hexdigest email).take 8, now1⟩ : UserRow)]).countP
      (fun r => r.email == email) = 1 := by
  have hall : ∀ r ∈ rows, ¬(r.email = email) := by
    intro r hr
    have := List.all_eq_true.mp h r hr
    simpa using this
  have hany : rows.any (fun r => r.email == email) = false := by
    rw [List.any_eq_false]
    intro r hr
    simpa using hall r hr
  refine ⟨?_, ?_, ?_⟩
  · simp [register_user, generate_user_id, hany]
  · simp [register_user, generate_user_id, List.any_append, hany]
  · rw [List.countP_append]
    have h0 : rows.countP (fun r => r.email == email) = 0 := by
      rw [List.countP_eq_zero]
      intro r hr
      simpa using hall r hr
    simp [h0]

/-- Concrete instantiation of `register_user_idempotent` starting from an
empty user table. -/
theorem register_user_idempotent_witness :
    register_user (fun s => s) "d1" "alice@x.com" (UsersFile.present []) =
      ((some (("alice@x.com" : String).take 8), true),
        UsersFile.present [(⟨"alice@x.com", ("alice@x.com" : String).take 8, "d1"⟩ : UserRow)]) ∧
    register_user (fun s => s) "d2" "alice@x.com"
        (UsersFile.present [(⟨"alice@x.com", ("alice@x.com" : String).take 8, "d1"⟩ : UserRow)]) =
      ((some (("alice@x.com" : String).take 8), false),
        UsersFile.present [(⟨"alice@x.com", ("alice@x.com" : String).take 8, "d1"⟩ : UserRow)]) ∧
    List.countP (fun r => r.email == "alice@x.com")
      [(⟨"alice@x.com", ("alice@x.com" : String).take 8, "d1"⟩ : UserRow)] = 1 :=
  register_user_idempotent (fun s => s) "d1" "d2" "alice@x.com" [] (by decide)

/-- C7: loading a legacy chat log tags every returned message with the
broadcast sentinel, persists the migrated log, and a second load of the
migrated log returns the identical ordered sequence and rewrites nothing. -/
theorem legacy_migration_round_trip (rows : List LegacyMessage) :
    load_messages (ChatFile.legacy rows) =
      (rows.map migrate_legacy, ChatFile.current (rows.map migrate_legacy)) ∧
    ((rows.map migrate_legacy).all (fun m => m.recipient == some "everyone")) = true ∧
    load_messages (ChatFile.current (rows.map migrate_legacy)) =
      (rows.map migrate_legacy, ChatFile.current (rows.map migrate_legacy)) := by
  refine ⟨rfl, ?_, rfl⟩
  simp [List.all_eq_true, migrate_legacy]

/-- C8 counterexample: creating a group whose member list already holds the
creator twice persists the creator twice — the persisted collection does not
contain the creator exactly once. -/
theorem create_group_duplicate_creator_counterexample :
    (create_group (fun s => s) "ts" "now" "g" "a@x.com" ["a@x.com", "a@x.com"]
        GroupsFile.missing).2 =
      GroupsFile.present [⟨"g_ts", "g", "a@x.com", "a@x.com,a@x.com", "now"⟩] ∧
    (create_group_members "a@x.com" ["a@x.com", "a@x.com"]).count "a@x.com" = 2 ∧
    String.intercalate "," (create_group_members "a@x.com" ["a@x.com", "a@x.com"]) =
      "a@x.com,a@x.com" := by
  refine ⟨rfl, by decide, rfl⟩

/-- C8 amended: the persisted member collection is the ordered comma-joined
input list with the creator appended exactly when absent; hence the creator
occurs `max (count in input) 1` times — exactly once whenever the input list
does not already hold a duplicate of the creator. -/
theorem create_group_members_spec (md5_hexdigest : String → String)
    (ts now group_name creator_email : String) (members : List String)
    (rows : List GroupRow) :
    (create_group md5_hexdigest ts now group_name creator_email members
        (GroupsFile.present rows)).2 =
      GroupsFile.present (rows ++
        [⟨generate_group_id md5_hexdigest ts group_name, group_name, creator_email,
          String.intercalate "," (create_group_members creator_email members), now⟩]) ∧
    (create_group_members creator_email members).count creator_email =
      max (members.count creator_email) 1 := by
  refine ⟨rfl, ?_⟩
  unfold create_group_members
  by_cases h : members.contains creator_email = true
  · rw [if_pos h]
    have hm : creator_email ∈ members := by
      simpa [List.contains, List.elem_eq_mem] using h
    have hc : 0 < members.count creator_email := List.count_pos_iff.mpr hm
    omega
  · rw [if_neg h]
    have hm : creator_email ∉ members := by
      simpa [List.contains, List.elem_eq_mem] using h
    have hc : members.count creator_email = 0 := List.count_eq_zero.mpr hm
    simp [hc]

/-- C4 counterexample: on a corrupt (unreadable) store, `load_messages` and
`get_user_groups` report the empty result, the very value they return for a
legitimately empty store — no distinct storage-error value is surfaced. -/
theorem storage_error_masked_counterexample :
    (load_messages ChatFile.corrupt).1 = [] ∧
    (load_messages (ChatFile.current [])).1 = [] ∧
    get_user_groups "alice@x.com" GroupsFile.corrupt = [] ∧
    get_user_groups "alice@x.com" (GroupsFile.present []) = [] :=
  ⟨rfl, rfl, rfl, rfl⟩

/-- C4 amended: when the store read raises, `load_messages` and
`get_user_groups` swallow the error and return the empty list —
indistinguishable from a legitimately empty store; only
`get_registered_users`, which has no exception handler, propagates the
error, which is distinguishable from its empty-store result. -/
theorem storage_error_current_behavior (e : String) :
    load_messages ChatFile.corrupt = ([], ChatFile.corrupt) ∧
    get_user_groups e GroupsFile.corrupt = [] ∧
    load_messages (ChatFile.current []) = ([], ChatFile.current []) ∧
    get_user_groups e (GroupsFile.present []) = [] ∧
    get_registered_users UsersFile.corrupt = Except.error () ∧
    (Except.error () : Except Unit (List UserDirEntry)) ≠ Except.ok [] := by
  refine ⟨rfl, rfl, rfl, rfl, rfl, by simp⟩

/-- C10: a missing log file is a legitimately empty store: the three load
operations return the empty sequence, and the first successful
`save_message`, `register_user` and `create_group` each create the file with
the new record as its only row. -/
theorem missing_file_empty_store (md5_hexdigest : String → String)
    (now ts email user_id message recipient group_name creator : String)
    (members : List String) :
    load_messages ChatFile.missing = ([], ChatFile.missing) ∧
    get_registered_users UsersFile.missing = Except.ok [] ∧
    get_user_groups email GroupsFile.missing = [] ∧
    save_message now email user_id message recipient ChatFile.missing =
      (true, ChatFile.current [⟨now, email, user_id, message, some recipient⟩]) ∧
    register_user md5_hexdigest now email UsersFile.missing =
      ((some (generate_user_id md5_hexdigest email), true),
        UsersFile.present [⟨email, generate_user_id md5_hexdigest email, now⟩]) ∧
    create_group md5_hexdigest ts now group_name creator members GroupsFile.missing =
      ((some (generate_group_id md5_hexdigest ts group_name), true),
        GroupsFile.present [⟨generate_group_id md5_hexdigest ts group_name, group_name,
          creator, String.intercalate "," (create_group_members creator members), now⟩]) :=
  ⟨rfl, rfl, rfl, rfl, rfl, rfl⟩
